import Mathlib

/-!
Verification development for the Viewport / render skeleton
(src/src/Viewport.ts of the raytraceInAWeekend repository).

Shallow embedding notes.

The repository has two pieces: the `Viewport` class, a thin wrapper
around an HTML canvas, and a `render` driver that scans every logical
pixel, computes a gradient color, and pushes the buffer back through
the `imageData` setter.

Embedding conventions:
- The canvas 2d-context pixel store and `ImageData` objects are both
  modelled by the structure `ImageData`: a width, a height and a flat
  row-major RGBA byte array modelled as a total function from byte
  index to byte value (indices at or beyond `4*width*height` carry
  the junk value 0, matching a `Uint8ClampedArray` that does not
  exist there: reads outside give `undefined`, writes outside are
  ignored, and every operation below canonicalises them to 0).
- `ctx.getImageData(0,0,w,h)` with `w,h` the canvas dimensions is a
  snapshot copy of the whole store (`Viewport.imageData`).
- `ctx.putImageData(id,0,0)` paints `id` at the origin, clipped to
  the canvas bounds; it performs no dimension validation
  (`putImageData` below, standard HTML canvas semantics).
- JavaScript number arithmetic in the color computation is modelled
  by exact rationals; the truncated integers proved below are far
  from rounding boundaries, so IEEE doubles produce the same values.
- `Math.trunc` is `mathTrunc`: truncation toward zero.
- Writes into a `Uint8ClampedArray` clamp to [0,255] (`clampByte`).
- `parseInt(this.canvas.style.width)` recovers the logical width the
  constructor wrote as a styled pixel size, so the styled sizes are
  carried as the natural numbers `styleWidth` / `styleHeight`.
- The device pixel ratio argument (`pixelRatio` in the source) is
  the natural number `dpr`; the claims under study quantify over
  integer ratios.
-/

/-- Flat row-major RGBA pixel buffer with 8-bit channels, the model of
both the canvas pixel store and browser ImageData objects. -/
structure ImageData where
  width : Nat
  height : Nat
  data : Nat → Nat

attribute [ext] ImageData

/-- Number of bytes in the buffer: 4 channels per pixel. -/
def ImageData.byteLen (id : ImageData) : Nat := 4 * id.width * id.height

/-- Uint8ClampedArray write semantics for an integer value: clamp
into [0,255]. -/
def clampByte (v : Int) : Nat := (max 0 (min v 255)).toNat

/-- Write one byte of the buffer; out-of-range indices are ignored,
as a typed-array store outside the bounds is. -/
def ImageData.setByte (id : ImageData) (k : Nat) (v : Int) : ImageData :=
  if k < id.byteLen then
    { id with data := fun m => if m = k then clampByte v else id.data m }
  else id

/-- Model of `ctx.putImageData(src, 0, 0)` on a canvas whose store is
`dst`: every destination pixel inside both the canvas bounds and the
source bounds takes the source value; everything else is untouched.
There is no dimension check of any kind. -/
def putImageData (dst src : ImageData) : ImageData :=
  { dst with data := fun k =>
      if k < dst.byteLen ∧ (k / 4) % dst.width < src.width ∧
          (k / 4) / dst.width < src.height then
        src.data (4 * (((k / 4) / dst.width) * src.width + (k / 4) % dst.width) + k % 4)
      else dst.data k }

/-- The Viewport class: styled (logical) size, backing-store size, and
the live pixel store of the canvas 2d context. -/
structure Viewport where
  styleWidth : Nat
  styleHeight : Nat
  canvasWidth : Nat
  canvasHeight : Nat
  store : ImageData

/-- `get width()`: parseInt of the styled width. -/
def Viewport.width (v : Viewport) : Nat := v.styleWidth

/-- `get height()`: parseInt of the styled height. -/
def Viewport.height (v : Viewport) : Nat := v.styleHeight

/-- The all-white store produced by `fill("white")` right after
`setSize`: every in-range byte is 255 (opaque white). -/
def whiteStore (w h : Nat) : ImageData :=
  { width := w, height := h, data := fun k => if k < 4 * w * h then 255 else 0 }

/-- `Viewport.create` / the constructor: `setSize(width, height, dpr)`
styles the canvas at the logical size, sizes the backing store at
`width*dpr` by `height*dpr`, and the constructor then fills the whole
surface white. -/
def Viewport.create (width height dpr : Nat) : Viewport :=
  { styleWidth := width
    styleHeight := height
    canvasWidth := width * dpr
    canvasHeight := height * dpr
    store := whiteStore (width * dpr) (height * dpr) }

/-- `get imageData()`: `ctx.getImageData(0, 0, canvas.width,
canvas.height)`, a fresh snapshot of the whole store. -/
def Viewport.imageData (v : Viewport) : ImageData :=
  { width := v.canvasWidth
    height := v.canvasHeight
    data := fun k =>
      if k < 4 * v.canvasWidth * v.canvasHeight then v.store.data k else 0 }

/-- `set imageData(id)`: `ctx.putImageData(id, 0, 0)`. -/
def Viewport.setImageData (v : Viewport) (id : ImageData) : Viewport :=
  { v with store := putImageData v.store id }

/-- `Math.trunc` on an exact rational: truncation toward zero. -/
def mathTrunc (q : ℚ) : ℤ := if 0 ≤ q then ⌊q⌋ else -⌊-q⌋

/-- A per-pixel color function: arguments are x, y, nx, ny; result the
(r,g,b) triple of integers the driver stores. -/
def ColorFn := Nat → Nat → Nat → Nat → Int × Int × Int

/-- The gradient in the source render loop:
`ir = trunc(255.99 * (i/nx))`, `ig = trunc(255.99 * (j/ny))`,
`ib = trunc(255.99 * 0.2)`. -/
def gradientColorFn : ColorFn := fun i j nx ny =>
  (mathTrunc ((255.99 : ℚ) * ((i : ℚ) / (nx : ℚ))),
   mathTrunc ((255.99 : ℚ) * ((j : ℚ) / (ny : ℚ))),
   mathTrunc ((255.99 : ℚ) * (0.2 : ℚ)))

/-- Channel selector for a color triple. -/
def channel (c : Nat) (rgb : Int × Int × Int) : Int :=
  match c with
  | 0 => rgb.1
  | 1 => rgb.2.1
  | 2 => rgb.2.2
  | _ => 0

/-- The three stores of one loop body:
`id.data[index] = ir; id.data[index+1] = ig; id.data[index+2] = ib`.
The alpha byte at `index+3` is not touched. -/
def writePixel (id : ImageData) (index : Nat) (rgb : Int × Int × Int) : ImageData :=
  ((id.setByte index rgb.1).setByte (index + 1) rgb.2.1).setByte (index + 2) rgb.2.2

/-- The scan order of the double loop: `j` from `ny-1` down to `0`,
and for each row `i` from `0` up to `nx-1`. -/
def renderPixels (nx ny : Nat) : List (Nat × Nat) :=
  ((List.range ny).reverse).flatMap fun j => (List.range nx).map fun i => (i, j)

/-- One iteration of the render loop: invoke the color function once,
store the three channels at the cursor, advance the cursor by 4. -/
def renderStep (cf : ColorFn) (nx ny : Nat) (acc : ImageData × Nat)
    (p : Nat × Nat) : ImageData × Nat :=
  (writePixel acc.1 acc.2 (cf p.1 p.2 nx ny), acc.2 + 4)

/-- The full double loop of `render`, started with cursor `index = 0`
on the acquired buffer. -/
def renderLoop (cf : ColorFn) (nx ny : Nat) (id : ImageData) : ImageData × Nat :=
  (renderPixels nx ny).foldl (renderStep cf nx ny) (id, 0)

/-- The buffer the driver commits: acquire `viewport.imageData`, run
the loop over the logical size `nx = viewport.width`,
`ny = viewport.height`. -/
def renderBuffer (cf : ColorFn) (v : Viewport) : ImageData :=
  (renderLoop cf v.width v.height v.imageData).1

/-- The whole `render` driver: acquire, loop, commit through the
`imageData` setter. -/
def render (cf : ColorFn) (v : Viewport) : Viewport :=
  v.setImageData (renderBuffer cf v)

/-- Number of color-function invocations of one `render` call: the
loop body runs once per element of the scan list and invokes the
color function exactly once per run. -/
def colorCalls (v : Viewport) : Nat := (renderPixels v.width v.height).length

/-- The error a failing per-pixel computation aborts the frame with. -/
structure PixelComputeError where
  message : String

/-- A per-pixel color function that can fail (model of a `colorFn`
that may throw). -/
def ColorFnE := Nat → Nat → Nat → Nat → Except PixelComputeError (Int × Int × Int)

/-- One iteration of the render loop with a failable color function: a
thrown error aborts the loop at once, as a JavaScript exception does. -/
def renderStepE (cf : ColorFnE) (nx ny : Nat) (acc : ImageData × Nat)
    (p : Nat × Nat) : Except PixelComputeError (ImageData × Nat) :=
  match cf p.1 p.2 nx ny with
  | Except.error e => Except.error e
  | Except.ok rgb => Except.ok (writePixel acc.1 acc.2 rgb, acc.2 + 4)

/-- The render driver with a failable color function: the commit (the
`imageData` setter) runs only when every invocation succeeded; an
exception propagates before any commit. -/
def renderFrameE (cf : ColorFnE) (v : Viewport) : Except PixelComputeError Viewport :=
  match (renderPixels v.width v.height).foldlM (renderStepE cf v.width v.height)
      (v.imageData, 0) with
  | Except.error e => Except.error e
  | Except.ok acc => Except.ok (v.setImageData acc.1)

/-- The surface as the caller sees it after a frame attempt: on an
error the commit never ran, so the surface is the unchanged `v`. -/
def applyRenderE (cf : ColorFnE) (v : Viewport) : Viewport :=
  match renderFrameE cf v with
  | Except.error _ => v
  | Except.ok v2 => v2

/-! Basic facts about single-byte writes. -/

theorem ImageData.width_setByte (id : ImageData) (k : Nat) (v : Int) :
    (id.setByte k v).width = id.width := by
  unfold ImageData.setByte
  split <;> rfl

theorem ImageData.height_setByte (id : ImageData) (k : Nat) (v : Int) :
    (id.setByte k v).height = id.height := by
  unfold ImageData.setByte
  split <;> rfl

theorem ImageData.byteLen_setByte (id : ImageData) (k : Nat) (v : Int) :
    (id.setByte k v).byteLen = id.byteLen := by
  unfold ImageData.byteLen
  rw [ImageData.width_setByte, ImageData.height_setByte]

theorem ImageData.data_setByte (id : ImageData) (k : Nat) (v : Int) (m : Nat) :
    (id.setByte k v).data m =
      if m = k ∧ k < id.byteLen then clampByte v else id.data m := by
  unfold ImageData.setByte
  by_cases hk : k < id.byteLen
  · rw [if_pos hk]
    by_cases hm : m = k
    · simp [hm, hk]
    · simp [hm]
  · rw [if_neg hk]
    rw [if_neg (by tauto)]

/-! Facts about one loop body (three channel writes at the cursor). -/

theorem writePixel_width (id : ImageData) (n : Nat) (rgb : Int × Int × Int) :
    (writePixel id n rgb).width = id.width := by
  unfold writePixel
  rw [ImageData.width_setByte, ImageData.width_setByte, ImageData.width_setByte]

theorem writePixel_height (id : ImageData) (n : Nat) (rgb : Int × Int × Int) :
    (writePixel id n rgb).height = id.height := by
  unfold writePixel
  rw [ImageData.height_setByte, ImageData.height_setByte, ImageData.height_setByte]

theorem writePixel_byteLen (id : ImageData) (n : Nat) (rgb : Int × Int × Int) :
    (writePixel id n rgb).byteLen = id.byteLen := by
  unfold ImageData.byteLen
  rw [writePixel_width, writePixel_height]

theorem writePixel_data (id : ImageData) (n : Nat) (rgb : Int × Int × Int) (k : Nat) :
    (writePixel id n rgb).data k =
      if n ≤ k ∧ k ≤ n + 2 ∧ k < id.byteLen then
        clampByte (channel (k - n) rgb)
      else id.data k := by
  unfold writePixel
  rw [ImageData.data_setByte, ImageData.byteLen_setByte, ImageData.byteLen_setByte,
    ImageData.data_setByte, ImageData.byteLen_setByte, ImageData.data_setByte]
  by_cases h2 : k = n + 2
  · subst h2
    by_cases hL : n + 2 < id.byteLen
    · rw [if_pos ⟨rfl, hL⟩, if_pos ⟨by omega, by omega, hL⟩]
      have : n + 2 - n = 2 := by omega
      rw [this]
      rfl
    · rw [if_neg (by tauto), if_neg (by omega), if_neg (by omega),
        if_neg (by tauto)]
  · rw [if_neg (by tauto)]
    by_cases h1 : k = n + 1
    · subst h1
      by_cases hL : n + 1 < id.byteLen
      · rw [if_pos ⟨rfl, hL⟩, if_pos ⟨by omega, by omega, hL⟩]
        have : n + 1 - n = 1 := by omega
        rw [this]
        rfl
      · rw [if_neg (by tauto), if_neg (by omega), if_neg (by tauto)]
    · rw [if_neg (by tauto)]
      by_cases h0 : k = n
      · subst h0
        by_cases hL : k < id.byteLen
        · rw [if_pos ⟨rfl, hL⟩, if_pos ⟨by omega, by omega, hL⟩]
          have : k - k = 0 := by omega
          rw [this]
          rfl
        · rw [if_neg (by tauto), if_neg (by tauto)]
      · rw [if_neg (by tauto), if_neg (by omega)]

/-! Facts about the fold that implements the double loop. -/

theorem foldl_renderStep_width (cf : ColorFn) (nx ny : Nat) (l : List (Nat × Nat))
    (id : ImageData) (n : Nat) :
    ((l.foldl (renderStep cf nx ny) (id, n)).1).width = id.width := by
  induction l generalizing id n with
  | nil => rfl
  | cons p t ih =>
      rw [List.foldl_cons]
      show ((t.foldl (renderStep cf nx ny) (renderStep cf nx ny (id, n) p)).1).width = _
      rw [renderStep]
      rw [ih]
      exact writePixel_width id n (cf p.1 p.2 nx ny)

theorem foldl_renderStep_height (cf : ColorFn) (nx ny : Nat) (l : List (Nat × Nat))
    (id : ImageData) (n : Nat) :
    ((l.foldl (renderStep cf nx ny) (id, n)).1).height = id.height := by
  induction l generalizing id n with
  | nil => rfl
  | cons p t ih =>
      rw [List.foldl_cons]
      show ((t.foldl (renderStep cf nx ny) (renderStep cf nx ny (id, n) p)).1).height = _
      rw [renderStep]
      rw [ih]
      exact writePixel_height id n (cf p.1 p.2 nx ny)

theorem foldl_renderStep_byteLen (cf : ColorFn) (nx ny : Nat) (l : List (Nat × Nat))
    (id : ImageData) (n : Nat) :
    ((l.foldl (renderStep cf nx ny) (id, n)).1).byteLen = id.byteLen := by
  unfold ImageData.byteLen
  rw [foldl_renderStep_width, foldl_renderStep_height]

theorem foldl_renderStep_snd (cf : ColorFn) (nx ny : Nat) (l : List (Nat × Nat))
    (id : ImageData) (n : Nat) :
    (l.foldl (renderStep cf nx ny) (id, n)).2 = n + 4 * l.length := by
  induction l generalizing id n with
  | nil => simp
  | cons p t ih =>
      rw [List.foldl_cons]
      show (t.foldl (renderStep cf nx ny) (renderStep cf nx ny (id, n) p)).2 = _
      rw [renderStep]
      rw [ih]
      simp
      omega

theorem foldl_renderStep_data (cf : ColorFn) (nx ny : Nat) (l : List (Nat × Nat))
    (m : Nat) (id : ImageData) (k : Nat) :
    ((l.foldl (renderStep cf nx ny) (id, 4 * m)).1).data k =
      if 4 * m ≤ k ∧ k < 4 * (m + l.length) ∧ k % 4 < 3 ∧ k < id.byteLen then
        clampByte (channel (k % 4)
          (cf (l.getD (k / 4 - m) (0, 0)).1 (l.getD (k / 4 - m) (0, 0)).2 nx ny))
      else id.data k := by
  induction l generalizing m id with
  | nil =>
      rw [List.foldl_nil, if_neg (by simp; omega)]
  | cons p t ih =>
      rw [List.foldl_cons]
      show ((t.foldl (renderStep cf nx ny) (renderStep cf nx ny (id, 4 * m) p)).1).data k = _
      rw [renderStep]
      have h4 : 4 * m + 4 = 4 * (m + 1) := by ring
      rw [h4]
      rw [ih (m + 1) (writePixel id (4 * m) (cf p.1 p.2 nx ny)) ]
      rw [writePixel_byteLen]
      by_cases h1 : 4 * (m + 1) ≤ k
      · have hdiv : m + 1 ≤ k / 4 := by omega
        have hsub : k / 4 - m = (k / 4 - (m + 1)) + 1 := by omega
        rw [hsub, List.getD_cons_succ]
        by_cases hc : k < 4 * ((m + 1) + t.length) ∧ k % 4 < 3 ∧ k < id.byteLen
        · rw [if_pos ⟨h1, hc⟩]
          rw [if_pos ⟨by omega, by rw [List.length_cons]; omega, hc.2.1, hc.2.2⟩]
        · rw [if_neg (by tauto)]
          rw [if_neg (fun h => hc ⟨by
              have := h.2.1
              rw [List.length_cons] at this
              omega, h.2.2.1, h.2.2.2⟩)]
          rw [writePixel_data, if_neg (by omega)]
      · rw [if_neg (by omega)]
        rw [writePixel_data]
        by_cases hc : 4 * m ≤ k ∧ k % 4 < 3 ∧ k < id.byteLen
        · have hdiv : k / 4 = m := by omega
          have hmod : k - 4 * m = k % 4 := by omega
          have hz : k / 4 - m = 0 := by omega
          rw [hz, List.getD_cons_zero]
          rw [if_pos ⟨hc.1, by omega, hc.2.2⟩]
          rw [if_pos ⟨hc.1, by rw [List.length_cons]; omega, hc.2.1, hc.2.2⟩, hmod]
        · rw [if_neg (by omega), if_neg (by omega)]

/-! The scan list in closed form: the t-th pixel computed by the loop
is `(t % nx, ny - 1 - t / nx)`. -/

theorem renderPixels_eq (nx ny : Nat) :
    renderPixels nx ny =
      (List.range (nx * ny)).map (fun t => (t % nx, ny - 1 - t / nx)) := by
  induction ny with
  | zero => simp [renderPixels]
  | succ n ih =>
      unfold renderPixels
      rw [List.range_succ, List.reverse_append]
      simp only [List.reverse_cons, List.reverse_nil, List.nil_append,
        List.cons_append, List.flatMap_cons]
      unfold renderPixels at ih
      rw [ih]
      have hmul : nx * (n + 1) = nx + nx * n := by ring
      rw [hmul, List.range_add, List.map_append, List.map_map]
      congr 1
      · apply List.map_congr_left
        intro t ht
        rw [List.mem_range] at ht
        rw [Nat.mod_eq_of_lt ht, Nat.div_eq_of_lt ht]
        simp
      · apply List.map_congr_left
        intro t ht
        rw [List.mem_range] at ht
        simp only [Function.comp_apply]
        have hx : 0 < nx := by
          rcases Nat.eq_zero_or_pos nx with h | h
          · subst h
            simp at ht
          · exact h
        have hmod : (nx + t) % nx = t % nx := Nat.add_mod_left nx t
        have hdivq : (nx + t) / nx = t / nx + 1 := by
          rw [Nat.add_comm nx t, Nat.add_div_right t hx]
        rw [hmod, hdivq]
        have : n + 1 - 1 - (t / nx + 1) = n - 1 - t / nx := by omega
        rw [this]

theorem renderPixels_length (nx ny : Nat) :
    (renderPixels nx ny).length = nx * ny := by
  rw [renderPixels_eq, List.length_map, List.length_range]

theorem renderPixels_getD (nx ny t : Nat) (ht : t < nx * ny) :
    (renderPixels nx ny).getD t (0, 0) = (t % nx, ny - 1 - t / nx) := by
  rw [renderPixels_eq]
  rw [List.getD_eq_getElem?_getD]
  rw [List.getElem?_map]
  rw [List.getElem?_range ht]
  rfl

/-! The committed buffer in closed form. -/

theorem renderLoop_fst_width (cf : ColorFn) (nx ny : Nat) (id : ImageData) :
    ((renderLoop cf nx ny id).1).width = id.width :=
  foldl_renderStep_width cf nx ny (renderPixels nx ny) id 0

theorem renderLoop_fst_height (cf : ColorFn) (nx ny : Nat) (id : ImageData) :
    ((renderLoop cf nx ny id).1).height = id.height :=
  foldl_renderStep_height cf nx ny (renderPixels nx ny) id 0

theorem renderLoop_fst_byteLen (cf : ColorFn) (nx ny : Nat) (id : ImageData) :
    ((renderLoop cf nx ny id).1).byteLen = id.byteLen :=
  foldl_renderStep_byteLen cf nx ny (renderPixels nx ny) id 0

theorem renderLoop_snd (cf : ColorFn) (nx ny : Nat) (id : ImageData) :
    (renderLoop cf nx ny id).2 = 4 * (nx * ny) := by
  unfold renderLoop
  rw [foldl_renderStep_snd, renderPixels_length]
  omega

theorem renderLoop_data (cf : ColorFn) (nx ny : Nat) (id : ImageData) (k : Nat) :
    ((renderLoop cf nx ny id).1).data k =
      if k < 4 * (nx * ny) ∧ k % 4 < 3 ∧ k < id.byteLen then
        clampByte (channel (k % 4) (cf (k / 4 % nx) (ny - 1 - k / 4 / nx) nx ny))
      else id.data k := by
  unfold renderLoop
  have h := foldl_renderStep_data cf nx ny (renderPixels nx ny) 0 id k
  rw [show (4 : Nat) * 0 = 0 from rfl] at h
  rw [renderPixels_length] at h
  rw [h]
  by_cases hc : k < 4 * (nx * ny) ∧ k % 4 < 3 ∧ k < id.byteLen
  · have ht : k / 4 < nx * ny := by
      have := hc.1
      omega
    have hgd := renderPixels_getD nx ny (k / 4) ht
    rw [if_pos ⟨by omega, by omega, hc.2.1, hc.2.2⟩, if_pos hc]
    rw [show k / 4 - 0 = k / 4 from rfl, hgd]
  · rw [if_neg (by omega), if_neg hc]

/-! Facts about the Viewport operations. -/

theorem Viewport.width_create (w h dpr : Nat) : (Viewport.create w h dpr).width = w := rfl

theorem Viewport.height_create (w h dpr : Nat) : (Viewport.create w h dpr).height = h := rfl

theorem imageData_create (w h dpr : Nat) :
    (Viewport.create w h dpr).imageData = whiteStore (w * dpr) (h * dpr) := by
  unfold Viewport.create Viewport.imageData whiteStore
  simp only []
  congr 1
  funext k
  by_cases hk : k < 4 * (w * dpr) * (h * dpr)
  · simp [hk]
  · simp [hk]

theorem byteLen_whiteStore (w h : Nat) : (whiteStore w h).byteLen = 4 * w * h := rfl

theorem putImageData_width (dst src : ImageData) :
    (putImageData dst src).width = dst.width := rfl

theorem putImageData_height (dst src : ImageData) :
    (putImageData dst src).height = dst.height := rfl

theorem putImageData_byteLen (dst src : ImageData) :
    (putImageData dst src).byteLen = dst.byteLen := rfl

/-- Committing a buffer whose dimensions agree with the canvas simply
copies every in-range byte into the store. -/
theorem putImageData_same_dims (dst src : ImageData) (hw : src.width = dst.width)
    (hh : src.height = dst.height) (k : Nat) :
    (putImageData dst src).data k =
      if k < dst.byteLen then src.data k else dst.data k := by
  unfold putImageData
  simp only []
  by_cases hk : k < dst.byteLen
  · have hlen : dst.byteLen = 4 * (dst.width * dst.height) := by
      unfold ImageData.byteLen
      ring
    have hwpos : 0 < dst.width := by
      rcases Nat.eq_zero_or_pos dst.width with h0 | h0
      · exfalso
        rw [hlen, h0] at hk
        simp at hk
      · exact h0
    have hhpos : 0 < dst.height := by
      rcases Nat.eq_zero_or_pos dst.height with h0 | h0
      · exfalso
        rw [hlen, h0] at hk
        simp at hk
      · exact h0
    have hq : k / 4 < dst.width * dst.height := by
      rw [hlen] at hk
      omega
    have hmodlt : (k / 4) % dst.width < src.width := by
      rw [hw]
      exact Nat.mod_lt _ hwpos
    have hdivlt : (k / 4) / dst.width < src.height := by
      rw [hh]
      rw [Nat.div_lt_iff_lt_mul hwpos]
      rw [Nat.mul_comm]
      exact hq
    rw [if_pos ⟨hk, hmodlt, hdivlt⟩, if_pos hk]
    congr 1
    rw [hw]
    have hrec : ((k / 4) / dst.width) * dst.width + (k / 4) % dst.width = k / 4 := by
      rw [Nat.mul_comm]
      exact Nat.div_add_mod (k / 4) dst.width
    rw [hrec]
    exact Nat.div_add_mod k 4
  · rw [if_neg (by tauto), if_neg hk]

theorem renderBuffer_width (cf : ColorFn) (v : Viewport) :
    (renderBuffer cf v).width = v.canvasWidth := by
  unfold renderBuffer
  rw [renderLoop_fst_width]
  rfl

theorem renderBuffer_height (cf : ColorFn) (v : Viewport) :
    (renderBuffer cf v).height = v.canvasHeight := by
  unfold renderBuffer
  rw [renderLoop_fst_height]
  rfl

theorem byteLen_imageData (v : Viewport) :
    (v.imageData).byteLen = 4 * v.canvasWidth * v.canvasHeight := rfl

theorem renderBuffer_byteLen (cf : ColorFn) (v : Viewport) :
    (renderBuffer cf v).byteLen = 4 * v.canvasWidth * v.canvasHeight := by
  unfold renderBuffer
  rw [renderLoop_fst_byteLen]
  rfl

/-- What the store holds after the commit at the end of `render`, for
a viewport whose store has the canvas dimensions: every byte inside
the store is the corresponding byte of the committed buffer. -/
theorem render_store_data (cf : ColorFn) (v : Viewport)
    (hw : v.store.width = v.canvasWidth) (hh : v.store.height = v.canvasHeight) (k : Nat) :
    (render cf v).store.data k =
      if k < v.store.byteLen then (renderBuffer cf v).data k else v.store.data k := by
  unfold render Viewport.setImageData
  exact putImageData_same_dims v.store (renderBuffer cf v)
    (by rw [renderBuffer_width, hw]) (by rw [renderBuffer_height, hh]) k

theorem render_styleWidth (cf : ColorFn) (v : Viewport) :
    (render cf v).styleWidth = v.styleWidth := rfl

theorem render_styleHeight (cf : ColorFn) (v : Viewport) :
    (render cf v).styleHeight = v.styleHeight := rfl

/-- Beyond the buffer length the committed buffer still carries the
canonical junk value of the acquired snapshot. -/
theorem renderBuffer_data_oob (cf : ColorFn) (v : Viewport) (k : Nat)
    (hk : 4 * v.canvasWidth * v.canvasHeight ≤ k) :
    (renderBuffer cf v).data k = 0 := by
  unfold renderBuffer
  rw [renderLoop_data]
  rw [if_neg (by
    intro h
    have := h.2.2
    rw [byteLen_imageData] at this
    omega)]
  unfold Viewport.imageData
  simp only []
  rw [if_neg (by omega)]

/-- The snapshot acquired right after the commit of `render` is the
committed buffer itself. -/
theorem imageData_render (cf : ColorFn) (v : Viewport)
    (hw : v.store.width = v.canvasWidth) (hh : v.store.height = v.canvasHeight) :
    (render cf v).imageData = renderBuffer cf v := by
  have hlen : v.store.byteLen = 4 * v.canvasWidth * v.canvasHeight := by
    unfold ImageData.byteLen
    rw [hw, hh]
  apply ImageData.ext
  · rw [renderBuffer_width]
    rfl
  · rw [renderBuffer_height]
    rfl
  · funext k
    show (if k < 4 * (render cf v).canvasWidth * (render cf v).canvasHeight
        then (render cf v).store.data k else 0) = (renderBuffer cf v).data k
    have hcw : (render cf v).canvasWidth = v.canvasWidth := rfl
    have hch : (render cf v).canvasHeight = v.canvasHeight := rfl
    rw [hcw, hch]
    by_cases hk : k < 4 * v.canvasWidth * v.canvasHeight
    · rw [if_pos hk, render_store_data cf v hw hh, if_pos (by omega)]
    · rw [if_neg hk, renderBuffer_data_oob cf v k (by omega)]

/-! Index arithmetic shared by several claims. -/

theorem pixelIndex_lt (x y w h : Nat) (hx : x < w) (hy : y < h) :
    y * w + x < w * h := by
  calc y * w + x < (y + 1) * w := by
        rw [Nat.succ_mul]
        omega
    _ ≤ h * w := Nat.mul_le_mul_right w (by omega)
    _ = w * h := Nat.mul_comm h w

theorem logical_le_backing (nx ny dpr : Nat) (hr : 1 ≤ dpr) :
    nx * ny ≤ (nx * dpr) * (ny * dpr) :=
  Nat.mul_le_mul (Nat.le_mul_of_pos_right nx (by omega))
    (Nat.le_mul_of_pos_right ny (by omega))

theorem byteLen_store_create (w h dpr : Nat) :
    (Viewport.create w h dpr).store.byteLen = 4 * (w * dpr) * (h * dpr) := rfl

theorem byteLen_imageData_create (w h dpr : Nat) :
    ((Viewport.create w h dpr).imageData).byteLen = 4 * (w * dpr) * (h * dpr) := rfl

/-- A pixel index inside the logical scan region is inside the
backing-store buffer whenever the pixel ratio is at least 1. -/
theorem scan_byte_lt_backing (nx ny dpr t c : Nat) (hr : 1 ≤ dpr)
    (ht : t < nx * ny) (hc : c ≤ 3) :
    4 * t + c < 4 * (nx * dpr) * (ny * dpr) := by
  have h1 : nx * ny ≤ (nx * dpr) * (ny * dpr) := logical_le_backing nx ny dpr hr
  have h2 : 4 * (nx * dpr) * (ny * dpr) = 4 * ((nx * dpr) * (ny * dpr)) := by ring
  omega

/-! Claim theorems. -/

/-- C6: after the constructor runs with (width, height, ratio), the
width and height getters return the logical width and height for every
ratio, and neither the render pass nor a buffer commit changes them;
only re-initialization could. -/
theorem C6_logical_size_invariant (w h dpr : Nat) (cf : ColorFn) (b : ImageData)
    (v : Viewport) :
    (Viewport.create w h dpr).width = w ∧ (Viewport.create w h dpr).height = h ∧
    (render cf v).width = v.width ∧ (render cf v).height = v.height ∧
    (v.setImageData b).width = v.width ∧ (v.setImageData b).height = v.height :=
  ⟨rfl, rfl, rfl, rfl, rfl, rfl⟩

/-- C1 counterexample: on a 1 by 1 surface created with pixel ratio 2
the render loop invokes the color function once, not
(1*2)*(1*2) = 4 times as the claim (once per backing-store pixel)
demands: the loop bounds are the logical size read from the styled
width and height, not the backing-store size. -/
theorem C1_cex_backing_store_call_count :
    colorCalls (Viewport.create 1 1 2) ≠ (1 * 2) * (1 * 2) := by decide

/-- C1 amended: one render pass invokes the color function exactly
`width * height` times, once per logical pixel; this equals the
backing-store pixel count only when the pixel ratio is 1. -/
theorem C1_call_count_is_logical (w h dpr : Nat) :
    colorCalls (Viewport.create w h dpr) = w * h := by
  unfold colorCalls
  exact renderPixels_length w h

/-- C2 counterexample: committing a 2 by 1 buffer (8 bytes) into a
1 by 1 surface (4 bytes) raises no error in the code, and it changes
the visible content: byte 0 of the store was 255 (white fill) and is 0
after the commit. The claimed `DimensionMismatchError` with unchanged
content does not happen: the setter forwards straight to
`putImageData`, which clips and paints. -/
theorem C2_cex_mismatched_commit_changes_content :
    ((Viewport.create 1 1 1).setImageData
        { width := 2, height := 1, data := fun _ => 0 }).store.data 0 = 0 ∧
      (Viewport.create 1 1 1).store.data 0 = 255 := by
  constructor
  · rfl
  · rfl

/-- C2 amended: a commit never fails and performs no dimension check;
each store pixel covered by the committed buffer takes the buffer
value and every other store pixel keeps its previous value, so a
mismatched commit succeeds and can change the visible content
partially. -/
theorem C2_commit_paints_clipped_overlap (v : Viewport) (b : ImageData) (x y c : Nat)
    (hx : x < v.store.width) (hy : y < v.store.height) (hc : c < 4) :
    (v.setImageData b).store.data (4 * (y * v.store.width + x) + c) =
      if x < b.width ∧ y < b.height then b.data (4 * (y * b.width + x) + c)
      else v.store.data (4 * (y * v.store.width + x) + c) := by
  unfold Viewport.setImageData putImageData
  simp only []
  have hwpos : 0 < v.store.width := by omega
  have hq : (4 * (y * v.store.width + x) + c) / 4 = y * v.store.width + x := by omega
  have hmodc : (4 * (y * v.store.width + x) + c) % 4 = c := by omega
  have hmod : (y * v.store.width + x) % v.store.width = x := by
    rw [Nat.mul_comm y v.store.width, Nat.mul_add_mod]
    exact Nat.mod_eq_of_lt hx
  have hdiv : (y * v.store.width + x) / v.store.width = y := by
    rw [Nat.mul_comm y v.store.width, Nat.mul_add_div hwpos]
    rw [Nat.div_eq_of_lt hx]
    omega
  have hpix : y * v.store.width + x < v.store.width * v.store.height :=
    pixelIndex_lt x y v.store.width v.store.height hx hy
  have hlen : v.store.byteLen = 4 * (v.store.width * v.store.height) := by
    unfold ImageData.byteLen
    ring
  have hk : 4 * (y * v.store.width + x) + c < v.store.byteLen := by
    rw [hlen]
    omega
  rw [hq, hmodc, hmod, hdiv]
  by_cases hxy : x < b.width ∧ y < b.height
  · rw [if_pos ⟨hk, hxy.1, hxy.2⟩, if_pos hxy]
  · rw [if_neg (by tauto), if_neg hxy]

/-- C9: with pixel ratio above 1, the render loop leaves every byte of
the acquired buffer at offset `4*nx*ny` or beyond exactly as it was in
the snapshot, although the buffer is `4*nx*ny*dpr^2` bytes long: the
loop only ever touches the first `4*nx*ny` bytes. -/
theorem C9_frame_effect_bounded (nx ny dpr : Nat) (cf : ColorFn) (k : Nat)
    (hr : 1 < dpr) (hk : 4 * (nx * ny) ≤ k) :
    (renderBuffer cf (Viewport.create nx ny dpr)).data k =
        ((Viewport.create nx ny dpr).imageData).data k ∧
      ((Viewport.create nx ny dpr).imageData).byteLen = 4 * (nx * ny) * (dpr * dpr) := by
  constructor
  · unfold renderBuffer
    show ((renderLoop cf nx ny ((Viewport.create nx ny dpr).imageData)).1).data k = _
    rw [renderLoop_data]
    rw [if_neg (by
      intro hcond
      have := hcond.1
      omega)]
  · rw [byteLen_imageData_create]
    ring

/-- C10: for any pixel ratio at least 1, after `t` loop iterations the
write cursor is exactly `4*t`, and for every iteration `t` of the scan
the candidate write offsets `4*t` through `4*t+3` are strictly inside
the acquired buffer of `4*(nx*dpr)*(ny*dpr)` bytes, so no write of the
loop is out of bounds. -/
theorem C10_writes_in_bounds (nx ny dpr : Nat) (cf : ColorFn) (t c : Nat)
    (hr : 1 ≤ dpr) (ht : t < nx * ny) (hc : c ≤ 3) :
    (((renderPixels nx ny).take t).foldl (renderStep cf nx ny)
        ((Viewport.create nx ny dpr).imageData, 0)).2 = 4 * t ∧
      4 * t + c < ((Viewport.create nx ny dpr).imageData).byteLen := by
  constructor
  · rw [foldl_renderStep_snd]
    rw [List.length_take, renderPixels_length]
    omega
  · rw [byteLen_imageData_create]
    exact scan_byte_lt_backing nx ny dpr t c hr ht hc

/-- Decomposition of the byte offset of logical pixel (x, y): the
storage row is `ny - 1 - y`, and taking the offset apart again with
division and remainder recovers the channel and the coordinates. -/
theorem scan_offset_decomp (nx ny x y c : Nat) (hx : x < nx) (hy : y < ny) (hc : c < 4) :
    (4 * ((ny - 1 - y) * nx + x) + c) % 4 = c ∧
      (4 * ((ny - 1 - y) * nx + x) + c) / 4 % nx = x ∧
      ny - 1 - (4 * ((ny - 1 - y) * nx + x) + c) / 4 / nx = y ∧
      (ny - 1 - y) * nx + x < nx * ny := by
  have hxpos : 0 < nx := by omega
  have hq : (4 * ((ny - 1 - y) * nx + x) + c) / 4 = (ny - 1 - y) * nx + x := by omega
  have hmodc : (4 * ((ny - 1 - y) * nx + x) + c) % 4 = c := by omega
  have hmod : ((ny - 1 - y) * nx + x) % nx = x := by
    rw [Nat.mul_comm (ny - 1 - y) nx, Nat.mul_add_mod]
    exact Nat.mod_eq_of_lt hx
  have hdiv : ((ny - 1 - y) * nx + x) / nx = ny - 1 - y := by
    rw [Nat.mul_comm (ny - 1 - y) nx, Nat.mul_add_div hxpos]
    rw [Nat.div_eq_of_lt hx]
    omega
  refine ⟨hmodc, ?_, ?_, ?_⟩
  · rw [hq, hmod]
  · rw [hq, hdiv]
    omega
  · exact pixelIndex_lt x (ny - 1 - y) nx ny hx (by omega)

/-- The committed buffer of a freshly created surface holds, at the
channel-`c` byte of the storage slot of logical pixel (x, y), the
clamped channel `c` of the color computed for (x, y). -/
theorem renderBuffer_create_pixel (nx ny dpr : Nat) (cf : ColorFn) (x y c : Nat)
    (hr : 1 ≤ dpr) (hx : x < nx) (hy : y < ny) (hc : c < 3) :
    (renderBuffer cf (Viewport.create nx ny dpr)).data (4 * ((ny - 1 - y) * nx + x) + c) =
      clampByte (channel c (cf x y nx ny)) := by
  obtain ⟨hmodc, hmodx, hdivy, hpix⟩ := scan_offset_decomp nx ny x y c hx hy (by omega)
  unfold renderBuffer
  show ((renderLoop cf nx ny ((Viewport.create nx ny dpr).imageData)).1).data
      (4 * ((ny - 1 - y) * nx + x) + c) = _
  rw [renderLoop_data]
  rw [if_pos ⟨by omega, by omega, by
    rw [byteLen_imageData_create]
    exact scan_byte_lt_backing nx ny dpr ((ny - 1 - y) * nx + x) c hr hpix (by omega)⟩]
  rw [hmodc, hmodx, hdivy]

/-- The alpha byte of every scanned pixel slot is carried over from
the acquired snapshot: the loop never stores to offset `index + 3`. -/
theorem renderBuffer_create_alpha (nx ny dpr : Nat) (cf : ColorFn) (x y : Nat)
    (hr : 1 ≤ dpr) (hx : x < nx) (hy : y < ny) :
    (renderBuffer cf (Viewport.create nx ny dpr)).data (4 * ((ny - 1 - y) * nx + x) + 3) =
      ((Viewport.create nx ny dpr).imageData).data (4 * ((ny - 1 - y) * nx + x) + 3) := by
  obtain ⟨hmodc, hmodx, hdivy, hpix⟩ := scan_offset_decomp nx ny x y 3 hx hy (by omega)
  unfold renderBuffer
  show ((renderLoop cf nx ny ((Viewport.create nx ny dpr).imageData)).1).data
      (4 * ((ny - 1 - y) * nx + x) + 3) = _
  rw [renderLoop_data]
  rw [if_neg (by
    intro hcond
    have := hcond.2.1
    omega)]

/-- C5: the loop scans rows from `ny-1` down to 0 and each row left to
right, so the t-th computed pixel is `(t % nx, ny - 1 - t / nx)`; the
single write cursor ends at `4*nx*ny` after advancing 4 per pixel; and
the color computed for logical (x, y) lands at byte offset
`4*((ny-1-y)*nx + x)` of the committed buffer. -/
theorem C5_scan_order_and_offsets (nx ny dpr : Nat) (cf : ColorFn) (x y c : Nat)
    (hr : 1 ≤ dpr) (hx : x < nx) (hy : y < ny) (hc : c < 3) :
    renderPixels nx ny = (List.range (nx * ny)).map (fun t => (t % nx, ny - 1 - t / nx)) ∧
      (renderLoop cf nx ny ((Viewport.create nx ny dpr).imageData)).2 = 4 * (nx * ny) ∧
      (renderBuffer cf (Viewport.create nx ny dpr)).data (4 * ((ny - 1 - y) * nx + x) + c) =
        clampByte (channel c (cf x y nx ny)) :=
  ⟨renderPixels_eq nx ny,
   renderLoop_snd cf nx ny ((Viewport.create nx ny dpr).imageData),
   renderBuffer_create_pixel nx ny dpr cf x y c hr hx hy hc⟩

/-- C5 witness at a 1 by 1 surface with ratio 1, the source gradient
color function, pixel (0,0), channel 0. -/
theorem C5_scan_order_and_offsets_witness :
    (1 ≤ 1 ∧ 0 < 1 ∧ 0 < 3) ∧
      (renderPixels 1 1 = (List.range (1 * 1)).map (fun t => (t % 1, 1 - 1 - t / 1)) ∧
        (renderLoop gradientColorFn 1 1 ((Viewport.create 1 1 1).imageData)).2 = 4 * (1 * 1) ∧
        (renderBuffer gradientColorFn (Viewport.create 1 1 1)).data
            (4 * ((1 - 1 - 0) * 1 + 0) + 0) =
          clampByte (channel 0 (gradientColorFn 0 0 1 1))) :=
  ⟨by decide,
   C5_scan_order_and_offsets 1 1 1 gradientColorFn 0 0 0 (by decide) (by decide)
     (by decide) (by decide)⟩

/-- C3 counterexample: the loop does not write the alpha channel. On a
1 by 1 surface whose store was legitimately committed to alpha 7, the
frame committed by the render pass still has alpha 7, not 255: the
loop stores only channels 0, 1, 2 and advances the cursor past the
alpha byte. -/
theorem C3_cex_alpha_not_written :
    (render (fun _ _ _ _ => (1, 2, 3))
        ((Viewport.create 1 1 1).setImageData
          { width := 1, height := 1, data := fun k => if k = 3 then 7 else 9 })).store.data 3 = 7 ∧
      (7 : Nat) ≠ 255 := by
  constructor
  · rfl
  · decide

/-- C3 amended: for every pixel visited by the scan loop the driver
explicitly writes channels 0 to 2 with the clamped (r,g,b) of the
color function; the alpha byte at offset +3 is not written and keeps
the value of the acquired snapshot (255 in practice only because the
constructor filled the surface with opaque white). -/
theorem C3_channels_written_alpha_preserved (nx ny dpr : Nat) (cf : ColorFn) (x y c : Nat)
    (hr : 1 ≤ dpr) (hx : x < nx) (hy : y < ny) (hc : c < 3) :
    (render cf (Viewport.create nx ny dpr)).store.data (4 * ((ny - 1 - y) * nx + x) + c) =
        clampByte (channel c (cf x y nx ny)) ∧
      (render cf (Viewport.create nx ny dpr)).store.data (4 * ((ny - 1 - y) * nx + x) + 3) =
        (Viewport.create nx ny dpr).store.data (4 * ((ny - 1 - y) * nx + x) + 3) := by
  have hpix : (ny - 1 - y) * nx + x < nx * ny :=
    (scan_offset_decomp nx ny x y 0 hx hy (by omega)).2.2.2
  have hkc : ∀ c2 : Nat, c2 ≤ 3 →
      4 * ((ny - 1 - y) * nx + x) + c2 < (Viewport.create nx ny dpr).store.byteLen := by
    intro c2 hc2
    rw [byteLen_store_create]
    exact scan_byte_lt_backing nx ny dpr ((ny - 1 - y) * nx + x) c2 hr hpix hc2
  constructor
  · rw [render_store_data cf (Viewport.create nx ny dpr) rfl rfl]
    rw [if_pos (hkc c (by omega))]
    exact renderBuffer_create_pixel nx ny dpr cf x y c hr hx hy hc
  · rw [render_store_data cf (Viewport.create nx ny dpr) rfl rfl]
    rw [if_pos (hkc 3 (by omega))]
    rw [renderBuffer_create_alpha nx ny dpr cf x y hr hx hy]
    unfold Viewport.imageData
    simp only []
    rw [if_pos (by
      have := hkc 3 (by omega)
      rw [byteLen_store_create] at this
      exact this)]

/-- C3 witness at a 2 by 1 surface with ratio 1, the source gradient
color function, pixel (1,0), channel 2. -/
theorem C3_channels_written_alpha_preserved_witness :
    (1 ≤ 1 ∧ 1 < 2 ∧ 0 < 1 ∧ 2 < 3) ∧
      ((render gradientColorFn (Viewport.create 2 1 1)).store.data
            (4 * ((1 - 1 - 0) * 2 + 1) + 2) =
          clampByte (channel 2 (gradientColorFn 1 0 2 1)) ∧
        (render gradientColorFn (Viewport.create 2 1 1)).store.data
            (4 * ((1 - 1 - 0) * 2 + 1) + 3) =
          (Viewport.create 2 1 1).store.data (4 * ((1 - 1 - 0) * 2 + 1) + 3)) :=
  ⟨by decide,
   C3_channels_written_alpha_preserved 2 1 1 gradientColorFn 1 0 2 (by decide) (by decide)
     (by decide) (by decide)⟩

/-- A failing color invocation anywhere in the scan list makes the
whole monadic fold fail, whatever the accumulator. -/
theorem foldlM_renderStepE_error (cf : ColorFnE) (nx ny x y : Nat)
    (e0 : PixelComputeError) (he : cf x y nx ny = Except.error e0) :
    ∀ l : List (Nat × Nat), (x, y) ∈ l → ∀ acc : ImageData × Nat,
      ∃ e, l.foldlM (renderStepE cf nx ny) acc = Except.error e := by
  intro l
  induction l with
  | nil =>
      intro hmem
      cases hmem
  | cons p t ih =>
      intro hmem acc
      rw [List.foldlM_cons]
      cases hcf : cf p.1 p.2 nx ny with
      | error e =>
          refine ⟨e, ?_⟩
          have hstep : renderStepE cf nx ny acc p = Except.error e := by
            unfold renderStepE
            rw [hcf]
          rw [hstep]
          rfl
      | ok rgb =>
          rcases List.mem_cons.mp hmem with hp | ht
          · exfalso
            have hx2 : p.1 = x := by rw [← hp]
            have hy2 : p.2 = y := by rw [← hp]
            rw [hx2, hy2, he] at hcf
            exact Except.noConfusion hcf
          · have hstep : renderStepE cf nx ny acc p =
                Except.ok (writePixel acc.1 acc.2 rgb, acc.2 + 4) := by
              unfold renderStepE
              rw [hcf]
            rw [hstep]
            exact ih ht (writePixel acc.1 acc.2 rgb, acc.2 + 4)

/-- C7: if the color function fails at any scanned pixel, the whole
frame fails with a PixelComputeError and the commit never runs: the
surface the caller holds is exactly the surface from before the frame
attempt, so no partial commit is visible. -/
theorem C7_fail_fast_no_partial_commit (cf : ColorFnE) (v : Viewport) (x y : Nat)
    (e0 : PixelComputeError) (hmem : (x, y) ∈ renderPixels v.width v.height)
    (he : cf x y v.width v.height = Except.error e0) :
    (∃ e, renderFrameE cf v = Except.error e) ∧ applyRenderE cf v = v := by
  obtain ⟨e, hE⟩ := foldlM_renderStepE_error cf v.width v.height x y e0 he
    (renderPixels v.width v.height) hmem (v.imageData, 0)
  have hframe : renderFrameE cf v = Except.error e := by
    unfold renderFrameE
    rw [hE]
  refine ⟨⟨e, hframe⟩, ?_⟩
  unfold applyRenderE
  rw [hframe]

/-- C7 witness: a color function that always fails, on a 1 by 1
surface with ratio 1. -/
theorem C7_fail_fast_no_partial_commit_witness :
    ((0, 0) ∈ renderPixels (Viewport.create 1 1 1).width (Viewport.create 1 1 1).height) ∧
      ((fun _ _ _ _ => Except.error { message := "fail" } : ColorFnE) 0 0
          (Viewport.create 1 1 1).width (Viewport.create 1 1 1).height =
        Except.error { message := "fail" }) ∧
      ((∃ e, renderFrameE (fun _ _ _ _ => Except.error { message := "fail" })
            (Viewport.create 1 1 1) = Except.error e) ∧
        applyRenderE (fun _ _ _ _ => Except.error { message := "fail" })
            (Viewport.create 1 1 1) = Viewport.create 1 1 1) :=
  ⟨by decide, rfl,
   C7_fail_fast_no_partial_commit (fun _ _ _ _ => Except.error { message := "fail" })
     (Viewport.create 1 1 1) 0 0 { message := "fail" } (by decide) rfl⟩

/-- C8: rendering twice with the same deterministic color function
commits bit-identical buffers: the second pass recomputes exactly the
same channel bytes, and every byte the loop does not touch (alpha and
anything past the scan region) was already carried over unchanged by
the first commit. -/
theorem C8_render_idempotent (cf : ColorFn) (v : Viewport)
    (hw : v.store.width = v.canvasWidth) (hh : v.store.height = v.canvasHeight) :
    renderBuffer cf (render cf v) = renderBuffer cf v := by
  have hQ := imageData_render cf v hw hh
  unfold renderBuffer
  show (renderLoop cf v.width v.height ((render cf v).imageData)).1 =
    (renderLoop cf v.width v.height v.imageData).1
  rw [hQ]
  apply ImageData.ext
  · rw [renderLoop_fst_width, renderLoop_fst_width, renderBuffer_width]
    rfl
  · rw [renderLoop_fst_height, renderLoop_fst_height, renderBuffer_height]
    rfl
  · funext k
    rw [renderLoop_data]
    by_cases hcond : k < 4 * (v.width * v.height) ∧ k % 4 < 3 ∧
        k < 4 * v.canvasWidth * v.canvasHeight
    · rw [if_pos ⟨hcond.1, hcond.2.1, by
        rw [renderBuffer_byteLen]
        exact hcond.2.2⟩]
      rw [renderLoop_data]
      rw [if_pos ⟨hcond.1, hcond.2.1, by
        rw [byteLen_imageData]
        exact hcond.2.2⟩]
    · rw [if_neg (by
        intro hc2
        exact hcond ⟨hc2.1, hc2.2.1, by
          rw [← renderBuffer_byteLen cf v]
          exact hc2.2.2⟩)]
      rfl

/-- C8 witness at a 2 by 2 surface with ratio 1 and the source
gradient color function. -/
theorem C8_render_idempotent_witness :
    ((Viewport.create 2 2 1).store.width = (Viewport.create 2 2 1).canvasWidth ∧
        (Viewport.create 2 2 1).store.height = (Viewport.create 2 2 1).canvasHeight) ∧
      renderBuffer gradientColorFn (render gradientColorFn (Viewport.create 2 2 1)) =
        renderBuffer gradientColorFn (Viewport.create 2 2 1) :=
  ⟨⟨rfl, rfl⟩, C8_render_idempotent gradientColorFn (Viewport.create 2 2 1) rfl rfl⟩

/-- Every byte of the committed frame of a freshly created surface
that lies inside the logical scan region: a channel byte holds the
clamped color channel of its pixel, an alpha byte holds the 255 of
the initial white fill. -/
theorem render_create_store_data (nx ny dpr : Nat) (cf : ColorFn) (k : Nat)
    (hr : 1 ≤ dpr) (hk : k < 4 * (nx * ny)) :
    (render cf (Viewport.create nx ny dpr)).store.data k =
      if k % 4 < 3 then
        clampByte (channel (k % 4) (cf (k / 4 % nx) (ny - 1 - k / 4 / nx) nx ny))
      else 255 := by
  have hbig : k < 4 * (nx * dpr) * (ny * dpr) := by
    have h1 : nx * ny ≤ (nx * dpr) * (ny * dpr) := logical_le_backing nx ny dpr hr
    have h2 : 4 * (nx * dpr) * (ny * dpr) = 4 * ((nx * dpr) * (ny * dpr)) := by ring
    omega
  rw [render_store_data cf (Viewport.create nx ny dpr) rfl rfl]
  rw [if_pos (by rw [byteLen_store_create]; exact hbig)]
  unfold renderBuffer
  show ((renderLoop cf nx ny ((Viewport.create nx ny dpr).imageData)).1).data k = _
  rw [renderLoop_data]
  by_cases hc : k % 4 < 3
  · rw [if_pos ⟨hk, hc, by rw [byteLen_imageData_create]; exact hbig⟩, if_pos hc]
  · rw [if_neg (by tauto), if_neg hc]
    show (if k < 4 * (nx * dpr) * (ny * dpr) then
        (Viewport.create nx ny dpr).store.data k else 0) = 255
    rw [if_pos hbig]
    show (if k < 4 * (nx * dpr) * (ny * dpr) then (255 : Nat) else 0) = 255
    rw [if_pos hbig]

/-! Concrete gradient values for the 640 by 480 scenario. -/

theorem grad00_r : channel 0 (gradientColorFn 0 479 640 480) = 0 := by
  show mathTrunc ((255.99 : ℚ) * (((0 : Nat) : ℚ) / ((640 : Nat) : ℚ))) = 0
  rw [mathTrunc, if_pos (by positivity)]
  push_cast
  norm_num

theorem grad00_g : channel 1 (gradientColorFn 0 479 640 480) = 255 := by
  show mathTrunc ((255.99 : ℚ) * (((479 : Nat) : ℚ) / ((480 : Nat) : ℚ))) = 255
  rw [mathTrunc, if_pos (by positivity)]
  rw [Int.floor_eq_iff]
  push_cast
  norm_num

theorem grad00_b : channel 2 (gradientColorFn 0 479 640 480) = 51 := by
  show mathTrunc ((255.99 : ℚ) * (0.2 : ℚ)) = 51
  rw [mathTrunc, if_pos (by positivity)]
  rw [Int.floor_eq_iff]
  norm_num

theorem grad11_r : channel 0 (gradientColorFn 639 0 640 480) = 255 := by
  show mathTrunc ((255.99 : ℚ) * (((639 : Nat) : ℚ) / ((640 : Nat) : ℚ))) = 255
  rw [mathTrunc, if_pos (by positivity)]
  rw [Int.floor_eq_iff]
  push_cast
  norm_num

theorem grad11_g : channel 1 (gradientColorFn 639 0 640 480) = 0 := by
  show mathTrunc ((255.99 : ℚ) * (((0 : Nat) : ℚ) / ((480 : Nat) : ℚ))) = 0
  rw [mathTrunc, if_pos (by positivity)]
  push_cast
  norm_num

theorem grad11_b : channel 2 (gradientColorFn 639 0 640 480) = 51 := by
  show mathTrunc ((255.99 : ℚ) * (0.2 : ℚ)) = 51
  rw [mathTrunc, if_pos (by positivity)]
  rw [Int.floor_eq_iff]
  norm_num

/-- C4 counterexample: in the committed frame of the 640 by 480,
ratio 1 scenario with the source gradient, the green channel of pixel
(0,0) of the stored image (byte offset 1) is 255, while the claim
expects approximately 191: the gap of 64 levels is far beyond any
reading of approximately (formalised here as within 8 levels), because
byte offset 1 belongs to the first storage row, which the bottom-up
loop fills from logical row y = 479, and trunc(255.99*479/480) = 255,
not 191. -/
theorem C4_cex_pixel00_green_is_255 :
    (render gradientColorFn (Viewport.create 640 480 1)).store.data 1 = 255 ∧
      ¬((render gradientColorFn (Viewport.create 640 480 1)).store.data 1 ≤ 191 + 8 ∧
        191 ≤ (render gradientColorFn (Viewport.create 640 480 1)).store.data 1 + 8) := by
  have h1 := render_create_store_data 640 480 1 gradientColorFn 1 (by norm_num) (by norm_num)
  norm_num at h1
  rw [grad00_g] at h1
  have hval : (render gradientColorFn (Viewport.create 640 480 1)).store.data 1 = 255 := by
    rw [h1]
    decide
  refine ⟨hval, ?_⟩
  rw [hval]
  decide

/-- C4 amended: for the 640 by 480, ratio 1 surface and the source
gradient color function, the committed frame has storage pixel (0,0)
(bytes 0 to 3) exactly equal to (0, 255, 51, 255) and storage pixel
(639, 479) (bytes at offset 4*(479*640+639)) exactly equal to
(255, 0, 51, 255); the alpha 255 comes from the initial white fill,
not from the loop. -/
theorem C4_scenario_pixels :
    (render gradientColorFn (Viewport.create 640 480 1)).store.data 0 = 0 ∧
      (render gradientColorFn (Viewport.create 640 480 1)).store.data 1 = 255 ∧
      (render gradientColorFn (Viewport.create 640 480 1)).store.data 2 = 51 ∧
      (render gradientColorFn (Viewport.create 640 480 1)).store.data 3 = 255 ∧
      (render gradientColorFn (Viewport.create 640 480 1)).store.data
          (4 * (479 * 640 + 639)) = 255 ∧
      (render gradientColorFn (Viewport.create 640 480 1)).store.data
          (4 * (479 * 640 + 639) + 1) = 0 ∧
      (render gradientColorFn (Viewport.create 640 480 1)).store.data
          (4 * (479 * 640 + 639) + 2) = 51 ∧
      (render gradientColorFn (Viewport.create 640 480 1)).store.data
          (4 * (479 * 640 + 639) + 3) = 255 := by
  have h0 := render_create_store_data 640 480 1 gradientColorFn 0 (by norm_num) (by norm_num)
  have h1 := render_create_store_data 640 480 1 gradientColorFn 1 (by norm_num) (by norm_num)
  have h2 := render_create_store_data 640 480 1 gradientColorFn 2 (by norm_num) (by norm_num)
  have h3 := render_create_store_data 640 480 1 gradientColorFn 3 (by norm_num) (by norm_num)
  have h4 := render_create_store_data 640 480 1 gradientColorFn (4 * (479 * 640 + 639))
    (by norm_num) (by norm_num)
  have h5 := render_create_store_data 640 480 1 gradientColorFn (4 * (479 * 640 + 639) + 1)
    (by norm_num) (by norm_num)
  have h6 := render_create_store_data 640 480 1 gradientColorFn (4 * (479 * 640 + 639) + 2)
    (by norm_num) (by norm_num)
  have h7 := render_create_store_data 640 480 1 gradientColorFn (4 * (479 * 640 + 639) + 3)
    (by norm_num) (by norm_num)
  norm_num at h0 h1 h2 h3 h4 h5 h6 h7
  rw [grad00_r] at h0
  rw [grad00_g] at h1
  rw [grad00_b] at h2
  rw [grad11_r] at h4
  rw [grad11_g] at h5
  rw [grad11_b] at h6
  refine ⟨?_, ?_, ?_, ?_, ?_, ?_, ?_, ?_⟩
  · rw [h0]
    decide
  · rw [h1]
    decide
  · rw [h2]
    decide
  · exact h3
  · rw [show (4 : Nat) * (479 * 640 + 639) = 1228796 from by norm_num, h4]
    decide
  · rw [show (4 : Nat) * (479 * 640 + 639) + 1 = 1228797 from by norm_num, h5]
    decide
  · rw [show (4 : Nat) * (479 * 640 + 639) + 2 = 1228798 from by norm_num, h6]
    decide
  · rw [show (4 : Nat) * (479 * 640 + 639) + 3 = 1228799 from by norm_num, h7]

/-- C2 witness: a 2 by 1 all-zero buffer committed into a 1 by 1
surface, read back at pixel (0,0), channel 0. -/
theorem C2_commit_paints_clipped_overlap_witness :
    (0 < (Viewport.create 1 1 1).store.width ∧ 0 < (Viewport.create 1 1 1).store.height ∧
        0 < 4) ∧
      ((Viewport.create 1 1 1).setImageData
            { width := 2, height := 1, data := fun _ => 0 }).store.data
          (4 * (0 * (Viewport.create 1 1 1).store.width + 0) + 0) =
        if 0 < ({ width := 2, height := 1, data := fun _ => 0 } : ImageData).width ∧
            0 < ({ width := 2, height := 1, data := fun _ => 0 } : ImageData).height then
          ({ width := 2, height := 1, data := fun _ => 0 } : ImageData).data
            (4 * (0 * ({ width := 2, height := 1, data := fun _ => 0 } : ImageData).width + 0) + 0)
        else
          (Viewport.create 1 1 1).store.data
            (4 * (0 * (Viewport.create 1 1 1).store.width + 0) + 0) :=
  ⟨by decide,
   C2_commit_paints_clipped_overlap (Viewport.create 1 1 1)
     { width := 2, height := 1, data := fun _ => 0 } 0 0 0 (by decide) (by decide) (by decide)⟩

/-- C9 witness at a 1 by 1 surface with ratio 2, byte offset 4 (the
first byte past the logical scan region). -/
theorem C9_frame_effect_bounded_witness :
    (1 < 2 ∧ 4 * (1 * 1) ≤ 4) ∧
      ((renderBuffer gradientColorFn (Viewport.create 1 1 2)).data 4 =
          ((Viewport.create 1 1 2).imageData).data 4 ∧
        ((Viewport.create 1 1 2).imageData).byteLen = 4 * (1 * 1) * (2 * 2)) :=
  ⟨by decide,
   C9_frame_effect_bounded 1 1 2 gradientColorFn 4 (by decide) (by decide)⟩

/-- C10 witness at a 1 by 1 surface with ratio 1, iteration 0,
channel offset 3. -/
theorem C10_writes_in_bounds_witness :
    (1 ≤ 1 ∧ 0 < 1 * 1 ∧ 3 ≤ 3) ∧
      ((((renderPixels 1 1).take 0).foldl (renderStep gradientColorFn 1 1)
          ((Viewport.create 1 1 1).imageData, 0)).2 = 4 * 0 ∧
        4 * 0 + 3 < ((Viewport.create 1 1 1).imageData).byteLen) :=
  ⟨by decide,
   C10_writes_in_bounds 1 1 1 gradientColorFn 0 3 (by decide) (by decide) (by decide)⟩
